import Mathlib

/-!
Verification of the notebook `src/HW3/Problem2.ipynb`: a frozen-BERT binary
sentiment classifier.  The notebook's own glue code (device selection, the
train/validation split, the fixed-length tokenisation call, the dataset
wrapper, the data loaders, the classifier head, the training loop, accuracy
computation and the sentiment printer) is shallowly embedded below; parts
delegated to external libraries (the BERT encoder forward pass, the
cross-entropy criterion and the Adam update rule) appear as abstract
function parameters.  Real numbers carried by tensors are modelled as
rationals.
-/

namespace Problem2

/-! ## Device selection

`device = torch.device('cuda' if torch.cuda.is_available() else 'mps')`. -/

def selectDevice (cudaAvailable : Bool) : String :=
  if cudaAvailable then "cuda" else "mps"

/-! ## Tokenizer adapter

`tokenize_function` calls the pretrained tokenizer with
`max_length=MAX_LENGTH, padding="max_length", truncation=True`. -/

def MAX_LENGTH : Nat := 256

/-- Modelled from the spec: the pretrained tokenizer's encode step is not in
`src/`; the spec describes it as converting raw text into "fixed-length
padded/truncated token-id sequences plus attention masks".  A raw text is
abstracted as its token-id list; the encode step truncates it to
`MAX_LENGTH` tokens and pads shorter sequences with the pad id 0, the
attention mask marking real tokens with 1 and padding with 0. -/
def encodeOne (tokenIds : List Nat) : List Nat × List Nat :=
  let t := tokenIds.take MAX_LENGTH
  (t ++ List.replicate (MAX_LENGTH - t.length) 0,
   List.replicate t.length 1 ++ List.replicate (MAX_LENGTH - t.length) 0)

/-- Embeds `tokenize_function(texts)`: encode every text with the fixed
max-length/padding/truncation settings. -/
def tokenize_function (texts : List (List Nat)) : List (List Nat × List Nat) :=
  texts.map encodeOne

/-! ## Stratified train/validation split

The notebook calls `train_test_split(train_texts, train_labels,
test_size=0.1, random_state=42, stratify=train_labels)` on the 25000
labelled training examples. -/

/-- Counts the examples carrying the given binary label. -/
def labelCount (lab : Bool) (xs : List (α × Bool)) : Nat :=
  (xs.filter fun d => d.2 == lab).length

/-- Modelled from the spec: `sklearn.model_selection.train_test_split` is
library code absent from `src/`; the spec describes the call as a
stratified train/validation split that "preserves the original class-label
proportions in each partition", the validation side holding 10% of the
examples (`test_size=0.1`).  Per class, the validation partition receives a
tenth of that class's examples (rounded down) and the train partition the
rest; which examples of a class land where is randomised by the library
(seeded by `random_state=42`) and irrelevant to the proportion and size
properties, so the first examples of each class are taken here. -/
def stratifiedSplit (data : List (α × Bool)) :
    List (α × Bool) × List (α × Bool) :=
  let pos := data.filter fun d => d.2 == true
  let neg := data.filter fun d => d.2 == false
  (pos.drop (pos.length / 10) ++ neg.drop (neg.length / 10),
   pos.take (pos.length / 10) ++ neg.take (neg.length / 10))

/-! ## Parameters, freezing and the optimizer

In `CustomBERTModel.__init__` every BERT parameter gets
`param.requires_grad = False`; the classifier layers are freshly
constructed, so their parameters carry the framework default
`requires_grad = True`.  Later,
`trainable_params = [p for p in model.parameters() if p.requires_grad]`
and `optimizer = optim.Adam(trainable_params, lr=1e-4)`. -/

structure Param where
  value : ℚ
  requires_grad : Bool
deriving DecidableEq, Repr

structure CustomBERTModel where
  bertParams : List Param
  classifierParams : List Param
deriving DecidableEq, Repr

/-- Embeds `CustomBERTModel.__init__`: load the pretrained BERT parameters
(whatever flags they arrive with), set `requires_grad = False` on every one
of them, and build the classifier layers, whose fresh parameters have
`requires_grad = True`. -/
def initModel (pretrainedBert : List Param) (classifierValues : List ℚ) : CustomBERTModel :=
  ⟨pretrainedBert.map fun p => ⟨p.value, false⟩,
   classifierValues.map fun v => ⟨v, true⟩⟩

/-- Embeds `model.parameters()`: the BERT parameters followed by the
classifier parameters. -/
def CustomBERTModel.parameters (m : CustomBERTModel) : List Param :=
  m.bertParams ++ m.classifierParams

/-- Embeds `trainable_params = [p for p in model.parameters() if p.requires_grad]`. -/
def trainableParams (m : CustomBERTModel) : List Param :=
  m.parameters.filter fun p => p.requires_grad

/-- Embeds one `optimizer.step()` of `optim.Adam(trainable_params, lr=1e-4)`:
the optimizer holds exactly the parameters handed to it at construction —
those with `requires_grad = True` — and a step writes a new value to each
of them and to no other parameter.  The Adam update rule itself is
delegated to the framework and abstracted as `upd`. -/
def optimStep (upd : ℚ → ℚ) (m : CustomBERTModel) : CustomBERTModel :=
  ⟨m.bertParams.map fun p => if p.requires_grad then ⟨upd p.value, p.requires_grad⟩ else p,
   m.classifierParams.map fun p => if p.requires_grad then ⟨upd p.value, p.requires_grad⟩ else p⟩

/-- A run of optimizer steps, one per processed batch, each with its own
(gradient-dependent) update function. -/
def optimSteps (upds : List (ℚ → ℚ)) (m : CustomBERTModel) : CustomBERTModel :=
  upds.foldl (fun acc u => optimStep u acc) m

/-! ## Accuracy via argmax-and-compare

Both the training loop and the test cell compute
`preds = torch.argmax(logits, dim=1)`, `correct = (preds == labels).sum()`
and divide the total correct count by the number of examples. -/

/-- Embeds `torch.argmax(logits, dim=1)` on one two-logit row: the index of
the first maximal entry. -/
def argmax2 (l0 l1 : ℚ) : Nat :=
  if l0 < l1 then 1 else 0

/-- Embeds the accumulated `correct = (preds == labels).sum().item()` over a
partition whose rows pair each example's two logits with its true label. -/
def countCorrect (rows : List ((ℚ × ℚ) × Nat)) : Nat :=
  (rows.filter fun r => argmax2 r.1.1 r.1.2 == r.2).length

/-- Embeds `acc = total_correct / total_examples` for one partition. -/
def accuracy (rows : List ((ℚ × ℚ) × Nat)) : ℚ :=
  (countCorrect rows : ℚ) / (rows.length : ℚ)

/-! ## IMDbDataset

Embedding of the `torch.utils.data.Dataset` wrapper: `self.encodings` maps
each tokenizer output key to one token-id sequence per example;
`self.labels` is the label list.  `__getitem__(idx)` indexes every encoding
list and the label list at `idx`, which raises in Python when `idx` is out
of range for any of them — modelled as `Option`. -/

inductive TensorVal where
  | vec (xs : List Nat)
  | scalar (x : Nat)
deriving DecidableEq, Repr

structure IMDbDataset where
  encodings : List (String × List (List Nat))
  labels : List Nat
deriving DecidableEq, Repr

/-- Embeds `__len__`: `len(self.labels)`. -/
def IMDbDataset.lengthDs (d : IMDbDataset) : Nat :=
  d.labels.length

/-- Embeds the dict comprehension
`{k: torch.tensor(v[idx]) for k, v in self.encodings.items()}`: index every
encoding list at `idx`, failing when any index is out of range. -/
def indexEncodings (idx : Nat) : List (String × List (List Nat)) →
    Option (List (String × TensorVal))
  | [] => some []
  | kv :: rest => do
      let v ← kv.2[idx]?
      let tail ← indexEncodings idx rest
      pure ((kv.1, TensorVal.vec v) :: tail)

/-- Embeds `__getitem__`: one tensor per encoding key, taken at `idx`, plus a
`"labels"` entry holding `self.labels[idx]`; `none` when any index is out
of range. -/
def IMDbDataset.getItem (d : IMDbDataset) (idx : Nat) :
    Option (List (String × TensorVal)) := do
  let item ← indexEncodings idx d.encodings
  let lab ← d.labels[idx]?
  pure (item ++ [("labels", TensorVal.scalar lab)])

/-! ## Classifier head

Embedding of `nn.Linear`, `nn.ReLU`, the `nn.Sequential` classifier
`768 -> 512 -> 256 -> 128 -> num_classes` and `CustomBERTModel.forward`.
Initial weight values are delegated to the framework and passed in as
functions; the BERT encoder's pooled output is an abstract function of the
input ids and attention mask. -/

structure Linear where
  weight : List (List ℚ)
  bias : List ℚ

/-- Embeds a dot product of a weight row with the input vector. -/
def dot (w x : List ℚ) : ℚ :=
  (List.zipWith (fun a b => a * b) w x).sum

/-- Embeds `nn.Linear(inFeatures, outFeatures)`: a weight matrix with
`outFeatures` rows of `inFeatures` entries and a bias vector of
`outFeatures` entries, with framework-supplied initial values. -/
def mkLinear (inFeatures outFeatures : Nat) (w : Nat → Nat → ℚ) (b : Nat → ℚ) : Linear :=
  ⟨(List.range outFeatures).map fun i => (List.range inFeatures).map (w i),
   (List.range outFeatures).map b⟩

/-- Embeds applying a linear layer: one affine form per output row. -/
def Linear.apply (l : Linear) (x : List ℚ) : List ℚ :=
  List.zipWith (fun row bi => dot row x + bi) l.weight l.bias

/-- Embeds `nn.ReLU()` applied elementwise. -/
def reluVec (x : List ℚ) : List ℚ :=
  x.map fun v => max v 0

structure Classifier where
  fc1 : Linear
  fc2 : Linear
  fc3 : Linear
  fc4 : Linear

/-- Embeds `self.classifier = nn.Sequential(nn.Linear(768, 512), nn.ReLU(),
nn.Linear(512, 256), nn.ReLU(), nn.Linear(256, 128), nn.ReLU(),
nn.Linear(128, num_classes))`. -/
def mkClassifier (num_classes : Nat) (w : Nat → Nat → Nat → ℚ) (b : Nat → Nat → ℚ) :
    Classifier :=
  ⟨mkLinear 768 512 (w 0) (b 0), mkLinear 512 256 (w 1) (b 1),
   mkLinear 256 128 (w 2) (b 2), mkLinear 128 num_classes (w 3) (b 3)⟩

/-- Embeds running the `nn.Sequential` stack: linear, ReLU, linear, ReLU,
linear, ReLU, linear. -/
def Classifier.apply (c : Classifier) (x : List ℚ) : List ℚ :=
  c.fc4.apply (reluVec (c.fc3.apply (reluVec (c.fc2.apply (reluVec (c.fc1.apply x))))))

/-- Embeds `CustomBERTModel.forward`: run the (frozen) BERT encoder on the
input ids and attention mask, take its pooled output — the CLS
representation, a 768-vector — and pass it through the classifier to get
the logits.  The encoder is delegated to the pretrained library and
abstracted as `bertPooled`. -/
def forwardLogits (bertPooled : List Nat → List Nat → List ℚ) (c : Classifier)
    (input_ids attention_mask : List Nat) : List ℚ :=
  c.apply (bertPooled input_ids attention_mask)

/-! ## Data loaders

The notebook builds
`DataLoader(train_dataset, batch_size=batch_size, shuffle=True)` and
`DataLoader(val_dataset / test_dataset, batch_size=batch_size,
shuffle=False)` with `batch_size = 8`. -/

def batch_size : Nat := 8

/-- Modelled from the spec plus the framework's documented semantics:
`torch.utils.data.DataLoader` is library code absent from `src/`.  With
`batch_size = bs` and the notebook's (default) `drop_last=False` it yields
the dataset in consecutive batches of `bs` examples, the final batch
holding the remainder when the dataset size is not divisible by `bs`.
`fuel` bounds the recursion; `batchesOf` supplies the dataset length,
which is enough fuel for any positive batch size. -/
def batchesGo (bs : Nat) : Nat → List α → List (List α)
  | _, [] => []
  | 0, _ :: _ => []
  | fuel + 1, x :: t => ((x :: t).take bs) :: batchesGo bs fuel ((x :: t).drop bs)

/-- Chunks a dataset into consecutive `DataLoader` batches. -/
def batchesOf (bs : Nat) (xs : List α) : List (List α) :=
  batchesGo bs xs.length xs

/-- Embeds `val_loader` / `test_loader` (`shuffle=False`): batches taken in
dataset order. -/
def sequentialLoader (xs : List α) : List (List α) :=
  batchesOf batch_size xs

/-- Embeds `train_loader` (`shuffle=True`): each epoch the sampler draws a
permutation of the dataset — delegated to the framework and abstracted as
the permuted list `shuffled` — and the loader batches it in that order. -/
def shuffledLoader (shuffled : List α) : List (List α) :=
  batchesOf batch_size shuffled

/-! ## Training loop

`EPOCHS = 2`; each epoch iterates once over the train batches — forward
pass, cross-entropy loss, `loss.backward()`, `optimizer.step()` —
accumulating the summed batch losses, the correct-prediction count and the
example count, then evaluates the validation batches under
`torch.no_grad()` (no optimizer step) and reports the per-epoch averages.
The forward pass, the criterion `nn.CrossEntropyLoss()` and the
backward/Adam arithmetic are delegated to the framework: `lossOf` is the
batch's `criterion(model(input_ids, attention_mask), labels)`, `gradOf`
the parameter update that `loss.backward(); optimizer.step()` derives from
the batch's gradients, `correctOf` the batch's
`(preds == labels).sum().item()` and `batchSizeOf` its `labels.size(0)`. -/

def EPOCHS : Nat := 2

structure EpochStats where
  losses : List ℚ
  correct : Nat
  examples : Nat

structure EpochReport where
  avg_train_loss : ℚ
  train_acc : ℚ
  avg_val_loss : ℚ
  val_acc : ℚ
  trainLosses : List ℚ
  valLosses : List ℚ

/-- Embeds the inner `for batch in train_loader:` loop: per batch, compute
the loss and the correct count on the current model, then step the
optimizer (through `optimStep`, so only `requires_grad` parameters
change). -/
def runTrainBatches (lossOf : CustomBERTModel → β → ℚ)
    (gradOf : CustomBERTModel → β → ℚ → ℚ)
    (correctOf : CustomBERTModel → β → Nat) (batchSizeOf : β → Nat) :
    CustomBERTModel → List β → CustomBERTModel × EpochStats
  | m, [] => (m, ⟨[], 0, 0⟩)
  | m, b :: bs =>
      let loss := lossOf m b
      let corr := correctOf m b
      let m2 := optimStep (gradOf m b) m
      let rest := runTrainBatches lossOf gradOf correctOf batchSizeOf m2 bs
      (rest.1, ⟨loss :: rest.2.losses, corr + rest.2.correct,
        batchSizeOf b + rest.2.examples⟩)

/-- Embeds the `with torch.no_grad(): for batch in val_loader:` loop: same
accumulation, no optimizer step, model unchanged. -/
def runEvalBatches (lossOf : CustomBERTModel → β → ℚ)
    (correctOf : CustomBERTModel → β → Nat) (batchSizeOf : β → Nat)
    (m : CustomBERTModel) : List β → EpochStats
  | [] => ⟨[], 0, 0⟩
  | b :: bs =>
      let rest := runEvalBatches lossOf correctOf batchSizeOf m bs
      ⟨lossOf m b :: rest.losses, correctOf m b + rest.correct,
       batchSizeOf b + rest.examples⟩

/-- Embeds one epoch: train over all train batches, evaluate over all
validation batches, and report `avg_train_loss = total_train_loss /
len(train_loader)`, `train_acc = total_train_correct / total_examples`,
and likewise for validation. -/
def runEpoch (lossOf : CustomBERTModel → β → ℚ)
    (gradOf : CustomBERTModel → β → ℚ → ℚ)
    (correctOf : CustomBERTModel → β → Nat) (batchSizeOf : β → Nat)
    (m : CustomBERTModel) (trainBatches valBatches : List β) :
    CustomBERTModel × EpochReport :=
  let tr := runTrainBatches lossOf gradOf correctOf batchSizeOf m trainBatches
  let ev := runEvalBatches lossOf correctOf batchSizeOf tr.1 valBatches
  (tr.1,
   ⟨tr.2.losses.sum / (trainBatches.length : ℚ),
    (tr.2.correct : ℚ) / (tr.2.examples : ℚ),
    ev.losses.sum / (valBatches.length : ℚ),
    (ev.correct : ℚ) / (ev.examples : ℚ),
    tr.2.losses, ev.losses⟩)

/-- Embeds `for epoch in range(EPOCHS):`, collecting one report per epoch in
order. -/
def trainLoop (lossOf : CustomBERTModel → β → ℚ)
    (gradOf : CustomBERTModel → β → ℚ → ℚ)
    (correctOf : CustomBERTModel → β → Nat) (batchSizeOf : β → Nat) :
    Nat → CustomBERTModel → List β → List β → CustomBERTModel × List EpochReport
  | 0, m, _, _ => (m, [])
  | n + 1, m, tb, vb =>
      let e := runEpoch lossOf gradOf correctOf batchSizeOf m tb vb
      let rest := trainLoop lossOf gradOf correctOf batchSizeOf n e.1 tb vb
      (rest.1, e.2 :: rest.2)

/-- Embeds the whole training cell: the loop run for `EPOCHS` epochs. -/
def runTraining (lossOf : CustomBERTModel → β → ℚ)
    (gradOf : CustomBERTModel → β → ℚ → ℚ)
    (correctOf : CustomBERTModel → β → Nat) (batchSizeOf : β → Nat)
    (m : CustomBERTModel) (trainBatches valBatches : List β) :
    CustomBERTModel × List EpochReport :=
  trainLoop lossOf gradOf correctOf batchSizeOf EPOCHS m trainBatches valBatches

/-! ## Sentiment printer

`sentiment = "POSITIVE" if pred == 1 else "NEGATIVE"`. -/

def sentimentLabel (pred : Nat) : String :=
  if pred == 1 then "POSITIVE" else "NEGATIVE"

end Problem2

/-! ## Theorems -/

/-- Helper: a model whose BERT parameters are all frozen keeps them, flags
and values alike, across any run of optimizer steps. -/
theorem optimSteps_preserves_frozen_bert (upds : List (ℚ → ℚ))
    (m : Problem2.CustomBERTModel)
    (h : ∀ p ∈ m.bertParams, p.requires_grad = false) :
    (Problem2.optimSteps upds m).bertParams = m.bertParams := by
  induction upds generalizing m with
  | nil => rfl
  | cons u us ih =>
    have hstep : (Problem2.optimStep u m).bertParams = m.bertParams := by
      show m.bertParams.map
          (fun p => if p.requires_grad then (⟨u p.value, p.requires_grad⟩ : Problem2.Param) else p)
          = m.bertParams
      have hcongr : ∀ p ∈ m.bertParams,
          (if p.requires_grad then (⟨u p.value, p.requires_grad⟩ : Problem2.Param) else p) = p := by
        intro p hp
        simp [h p hp]
      rw [List.map_congr_left hcongr]
      simp
    have h2 : ∀ p ∈ (Problem2.optimStep u m).bertParams, p.requires_grad = false := by
      rw [hstep]; exact h
    calc (Problem2.optimSteps (u :: us) m).bertParams
        = (Problem2.optimSteps us (Problem2.optimStep u m)).bertParams := rfl
      _ = (Problem2.optimStep u m).bertParams := ih _ h2
      _ = m.bertParams := hstep

/-- Helper: shape facts for an embedded `nn.Linear(inF, outF)` layer: the
weight matrix has `outF` rows of `inF` entries, the bias has `outF`
entries, and applying the layer to any vector yields `outF` outputs. -/
theorem mkLinear_shape (inF outF : Nat) (w : Nat → Nat → ℚ) (b : Nat → ℚ) :
    (Problem2.mkLinear inF outF w b).weight.length = outF ∧
    (∀ r ∈ (Problem2.mkLinear inF outF w b).weight, r.length = inF) ∧
    (Problem2.mkLinear inF outF w b).bias.length = outF ∧
    ∀ x : List ℚ, ((Problem2.mkLinear inF outF w b).apply x).length = outF := by
  refine ⟨by simp [Problem2.mkLinear], ?_, by simp [Problem2.mkLinear], ?_⟩
  · intro r hr
    rcases (by simpa [Problem2.mkLinear] using hr :
        ∃ i, i < outF ∧ List.map (w i) (List.range inF) = r) with ⟨i, _, rfl⟩
    simp
  · intro x
    simp [Problem2.Linear.apply, Problem2.mkLinear]

/-- C2: the classifier head is a feed-forward network of exactly 4 linear
layers with ReLU activations between them, with dimensions
768 -> 512 -> 256 -> 128 -> 2, consuming the pooled encoder output; for
every input batch the forward pass applies the stack to the encoder's
pooled output and returns 2 logits per example. -/
theorem C2_classifier_four_layers (w : Nat → Nat → Nat → ℚ) (b : Nat → Nat → ℚ)
    (bertPooled : List Nat → List Nat → List ℚ)
    (batch : List (List Nat × List Nat)) :
    ((Problem2.mkClassifier 2 w b).fc1.weight.length = 512 ∧
      ∀ r ∈ (Problem2.mkClassifier 2 w b).fc1.weight, r.length = 768) ∧
    ((Problem2.mkClassifier 2 w b).fc2.weight.length = 256 ∧
      ∀ r ∈ (Problem2.mkClassifier 2 w b).fc2.weight, r.length = 512) ∧
    ((Problem2.mkClassifier 2 w b).fc3.weight.length = 128 ∧
      ∀ r ∈ (Problem2.mkClassifier 2 w b).fc3.weight, r.length = 256) ∧
    ((Problem2.mkClassifier 2 w b).fc4.weight.length = 2 ∧
      ∀ r ∈ (Problem2.mkClassifier 2 w b).fc4.weight, r.length = 128) ∧
    (∀ x : List ℚ, (Problem2.mkClassifier 2 w b).apply x
        = (Problem2.mkClassifier 2 w b).fc4.apply (Problem2.reluVec
            ((Problem2.mkClassifier 2 w b).fc3.apply (Problem2.reluVec
              ((Problem2.mkClassifier 2 w b).fc2.apply (Problem2.reluVec
                ((Problem2.mkClassifier 2 w b).fc1.apply x))))))) ∧
    ∀ pr ∈ batch,
      Problem2.forwardLogits bertPooled (Problem2.mkClassifier 2 w b) pr.1 pr.2
          = (Problem2.mkClassifier 2 w b).apply (bertPooled pr.1 pr.2) ∧
      (Problem2.forwardLogits bertPooled (Problem2.mkClassifier 2 w b) pr.1 pr.2).length
          = 2 := by
  refine ⟨⟨(mkLinear_shape 768 512 (w 0) (b 0)).1, (mkLinear_shape 768 512 (w 0) (b 0)).2.1⟩,
    ⟨(mkLinear_shape 512 256 (w 1) (b 1)).1, (mkLinear_shape 512 256 (w 1) (b 1)).2.1⟩,
    ⟨(mkLinear_shape 256 128 (w 2) (b 2)).1, (mkLinear_shape 256 128 (w 2) (b 2)).2.1⟩,
    ⟨(mkLinear_shape 128 2 (w 3) (b 3)).1, (mkLinear_shape 128 2 (w 3) (b 3)).2.1⟩,
    fun _ => rfl, ?_⟩
  intro pr _
  exact ⟨rfl, (mkLinear_shape 128 2 (w 3) (b 3)).2.2.2 _⟩

/-- Helper: when every encoding list is long enough, indexing them all at
`idx` succeeds and produces one tensor per encoding key. -/
theorem mapM_index_encodings (idx : Nat) (es : List (String × List (List Nat)))
    (h : ∀ kv ∈ es, idx < kv.2.length) :
    Problem2.indexEncodings idx es
      = some (es.map fun kv => (kv.1, Problem2.TensorVal.vec (kv.2.getD idx []))) := by
  induction es with
  | nil => rfl
  | cons kv es ih =>
    have hkv : idx < kv.2.length := h kv (by simp)
    have hrest := ih fun x hx => h x (by simp [hx])
    simp [Problem2.indexEncodings, hrest, List.getElem?_eq_getElem hkv]

/-- C9: for every IMDbDataset built from encodings and labels, `__len__`
returns the number of labels (ignoring the lengths of the encoding lists),
and under the precondition that every encoding list has at least
`len(labels)` entries, `__getitem__(idx)` for every in-range `idx` returns
a dict containing one tensor per encoding key plus a `"labels"` entry equal
to `labels[idx]`. -/
theorem C9_dataset_len_getitem (d : Problem2.IMDbDataset) (idx : Nat)
    (henc : ∀ kv ∈ d.encodings, d.labels.length ≤ kv.2.length)
    (hidx : idx < d.labels.length) :
    d.lengthDs = d.labels.length ∧
    ∃ l, d.labels[idx]? = some l ∧
      d.getItem idx
        = some ((d.encodings.map fun kv =>
              (kv.1, Problem2.TensorVal.vec (kv.2.getD idx [])))
            ++ [("labels", Problem2.TensorVal.scalar l)]) := by
  refine ⟨rfl, d.labels[idx], List.getElem?_eq_getElem hidx, ?_⟩
  have hall : ∀ kv ∈ d.encodings, idx < kv.2.length :=
    fun kv hkv => lt_of_lt_of_le hidx (henc kv hkv)
  simp [Problem2.IMDbDataset.getItem, mapM_index_encodings idx d.encodings hall,
    List.getElem?_eq_getElem hidx]

/-- Witness for C9 at a concrete dataset: two encoding keys, two examples,
index 0. -/
theorem C9_dataset_len_getitem_witness :
    (Problem2.IMDbDataset.mk
        [("input_ids", [[101, 2023], [101, 6659]]), ("attention_mask", [[1, 1], [1, 0]])]
        [0, 1]).lengthDs = 2 ∧
    ∃ l, ([0, 1] : List Nat)[0]? = some l ∧
      (Problem2.IMDbDataset.mk
        [("input_ids", [[101, 2023], [101, 6659]]), ("attention_mask", [[1, 1], [1, 0]])]
        [0, 1]).getItem 0
        = some ((([("input_ids", [[101, 2023], [101, 6659]]),
                ("attention_mask", [[1, 1], [1, 0]])] :
                  List (String × List (List Nat))).map fun kv =>
                (kv.1, Problem2.TensorVal.vec (kv.2.getD 0 [])))
            ++ [("labels", Problem2.TensorVal.scalar l)]) := by
  have h := C9_dataset_len_getitem
    (Problem2.IMDbDataset.mk
      [("input_ids", [[101, 2023], [101, 6659]]), ("attention_mask", [[1, 1], [1, 0]])]
      [0, 1]) 0 (by decide) (by decide)
  exact ⟨by decide, h.2⟩

/-- Helper: chunking the empty dataset yields no batches, whatever the
fuel. -/
theorem batchesGo_nil (bs fuel : Nat) :
    Problem2.batchesGo (α := α) bs fuel [] = [] := by
  cases fuel <;> rfl

/-- Helper: with positive batch size and enough fuel, the concatenation of
the batches is the dataset itself, in order. -/
theorem batchesGo_join (bs : Nat) (hbs : 0 < bs) :
    ∀ (fuel : Nat) (xs : List α), xs.length ≤ fuel →
      (Problem2.batchesGo bs fuel xs).flatten = xs := by
  intro fuel
  induction fuel with
  | zero =>
    intro xs hxs
    cases xs with
    | nil => rfl
    | cons x t => simp at hxs
  | succ n ih =>
    intro xs hxs
    cases xs with
    | nil => rfl
    | cons x t =>
      have hlen : ((x :: t).drop bs).length ≤ n := by
        simp only [List.length_drop, List.length_cons]
        simp only [List.length_cons] at hxs
        omega
      calc (Problem2.batchesGo bs (n + 1) (x :: t)).flatten
          = (x :: t).take bs ++ (Problem2.batchesGo bs n ((x :: t).drop bs)).flatten := rfl
        _ = (x :: t).take bs ++ (x :: t).drop bs := by rw [ih _ hlen]
        _ = x :: t := List.take_append_drop bs (x :: t)

/-- Helper: every produced batch is nonempty and holds at most `bs`
examples. -/
theorem batchesGo_mem_size (bs : Nat) (hbs : 0 < bs) :
    ∀ (fuel : Nat) (xs : List α) (b : List α),
      b ∈ Problem2.batchesGo bs fuel xs → b ≠ [] ∧ b.length ≤ bs := by
  intro fuel
  induction fuel with
  | zero =>
    intro xs b hb
    cases xs <;> simp [Problem2.batchesGo] at hb
  | succ n ih =>
    intro xs b hb
    cases xs with
    | nil => simp [Problem2.batchesGo] at hb
    | cons x t =>
      rcases (by simpa [Problem2.batchesGo] using hb :
          b = (x :: t).take bs ∨ b ∈ Problem2.batchesGo bs n ((x :: t).drop bs)) with hb1 | hb2
      · subst hb1
        constructor
        · cases bs with
          | zero => exact absurd hbs (by simp)
          | succ k => simp [List.take_cons]
        · simp
      · exact ih _ _ hb2

/-- Helper: every batch except possibly the last holds exactly `bs`
examples. -/
theorem batchesGo_dropLast_full (bs : Nat) :
    ∀ (fuel : Nat) (xs : List α) (b : List α),
      b ∈ (Problem2.batchesGo bs fuel xs).dropLast → b.length = bs := by
  intro fuel
  induction fuel with
  | zero =>
    intro xs b hb
    cases xs <;> simp [Problem2.batchesGo] at hb
  | succ n ih =>
    intro xs b hb
    cases xs with
    | nil => simp [Problem2.batchesGo] at hb
    | cons x t =>
      have hb' : b ∈ ((x :: t).take bs :: Problem2.batchesGo bs n ((x :: t).drop bs)).dropLast :=
        hb
      rcases heq : Problem2.batchesGo bs n ((x :: t).drop bs) with _ | ⟨r, rs⟩
      · rw [heq] at hb'
        simp at hb'
      · rw [heq, List.dropLast_cons_of_ne_nil (by simp)] at hb'
        rcases List.mem_cons.mp hb' with hb1 | hb2
        · subst hb1
          have hdrop : (x :: t).drop bs ≠ [] := by
            intro hnil
            rw [hnil, batchesGo_nil] at heq
            exact List.noConfusion heq
          have hlt : bs < (x :: t).length := by
            by_contra hge
            exact hdrop (List.drop_eq_nil_of_le (by omega))
          exact List.length_take_of_le (by omega)
        · exact ih _ _ (by rw [heq]; exact hb2)

/-- Helper: the label count of a concatenation adds up. -/
theorem labelCount_append (lab : Bool) (xs ys : List (α × Bool)) :
    Problem2.labelCount lab (xs ++ ys)
      = Problem2.labelCount lab xs + Problem2.labelCount lab ys := by
  simp [Problem2.labelCount, List.filter_append]

/-- Helper: on a list whose members all carry the label, the label count is
the length. -/
theorem labelCount_eq_length (lab : Bool) (ys : List (α × Bool))
    (h : ∀ d ∈ ys, d.2 = lab) :
    Problem2.labelCount lab ys = ys.length := by
  unfold Problem2.labelCount
  rw [List.filter_eq_self.mpr fun a ha => by simp [h a ha]]

/-- Helper: on a list whose members all carry the opposite label, the label
count is zero. -/
theorem labelCount_eq_zero (lab : Bool) (ys : List (α × Bool))
    (h : ∀ d ∈ ys, d.2 = !lab) :
    Problem2.labelCount lab ys = 0 := by
  unfold Problem2.labelCount
  rw [List.filter_eq_nil_iff.mpr fun a ha => by simp [h a ha]]
  rfl

/-- Helper: the two label classes together are a permutation of the data. -/
theorem filter_true_false_perm (data : List (α × Bool)) :
    ((data.filter fun d => d.2 == true) ++ (data.filter fun d => d.2 == false)).Perm
      data := by
  have hcongr : (data.filter fun d => d.2 == false)
      = data.filter fun d => !(d.2 == true) :=
    List.filter_congr fun a _ => by cases a.2 <;> rfl
  rw [hcongr]
  exact List.filter_append_perm (fun d => d.2 == true) data

/-- C3 counterexample: as stated — for every input list — the claim fails:
on the 3-example dataset with one positive and two negatives, the
validation partition receives 0 examples, not 10% of 3. -/
theorem C3_counterexample_not_ten_percent :
    ¬ ((Problem2.stratifiedSplit
          [((0 : Nat), true), ((1 : Nat), false), ((2 : Nat), false)]).2.length * 10
        = ([((0 : Nat), true), ((1 : Nat), false), ((2 : Nat), false)]
            : List (Nat × Bool)).length) := by
  decide

/-- C3 (amended): the split is stratified per class and, whenever each
class's example count is a multiple of 10 — as with the notebook's 12500
positive and 12500 negative training reviews — the validation partition
holds exactly 10% of the examples, train and validation partition the
data, and each partition contains the two labels in exactly the input's
proportions (cross-multiplied to stay in integers). -/
theorem C3_stratified_split (data : List (α × Bool))
    (hp : 10 ∣ Problem2.labelCount true data)
    (hn : 10 ∣ Problem2.labelCount false data) :
    (Problem2.stratifiedSplit data).2.length * 10 = data.length ∧
    (Problem2.stratifiedSplit data).1.length + (Problem2.stratifiedSplit data).2.length
      = data.length ∧
    ((Problem2.stratifiedSplit data).1 ++ (Problem2.stratifiedSplit data).2).Perm data ∧
    Problem2.labelCount true (Problem2.stratifiedSplit data).2 * data.length
      = Problem2.labelCount true data * (Problem2.stratifiedSplit data).2.length ∧
    Problem2.labelCount false (Problem2.stratifiedSplit data).2 * data.length
      = Problem2.labelCount false data * (Problem2.stratifiedSplit data).2.length ∧
    Problem2.labelCount true (Problem2.stratifiedSplit data).1 * data.length
      = Problem2.labelCount true data * (Problem2.stratifiedSplit data).1.length ∧
    Problem2.labelCount false (Problem2.stratifiedSplit data).1 * data.length
      = Problem2.labelCount false data * (Problem2.stratifiedSplit data).1.length := by
  obtain ⟨p0, hp0⟩ := hp
  obtain ⟨n0, hn0⟩ := hn
  have hposmem : ∀ d ∈ data.filter fun d : α × Bool => d.2 == true, d.2 = true :=
    fun d hd => by simpa using (List.mem_filter.mp hd).2
  have hnegmem : ∀ d ∈ data.filter fun d : α × Bool => d.2 == false, d.2 = false :=
    fun d hd => by simpa using (List.mem_filter.mp hd).2
  have hPdata : Problem2.labelCount true data
      = (data.filter fun d : α × Bool => d.2 == true).length := rfl
  have hNdata : Problem2.labelCount false data
      = (data.filter fun d : α × Bool => d.2 == false).length := rfl
  set pos := data.filter fun d : α × Bool => d.2 == true with hposdef
  set neg := data.filter fun d : α × Bool => d.2 == false with hnegdef
  have hlen : pos.length + neg.length = data.length := by
    have h := (filter_true_false_perm data).length_eq
    rw [List.length_append] at h
    exact h
  have hPdiv : pos.length / 10 = p0 := by omega
  have hNdiv : neg.length / 10 = n0 := by omega
  have hval : (Problem2.stratifiedSplit data).2
      = pos.take (pos.length / 10) ++ neg.take (neg.length / 10) := rfl
  have htrain : (Problem2.stratifiedSplit data).1
      = pos.drop (pos.length / 10) ++ neg.drop (neg.length / 10) := rfl
  have hvalLen : (Problem2.stratifiedSplit data).2.length = p0 + n0 := by
    rw [hval, List.length_append, List.length_take, List.length_take]
    omega
  have htrainLen : (Problem2.stratifiedSplit data).1.length = 9 * p0 + 9 * n0 := by
    rw [htrain, List.length_append, List.length_drop, List.length_drop]
    omega
  have hvalT : Problem2.labelCount true (Problem2.stratifiedSplit data).2 = p0 := by
    rw [hval, labelCount_append,
      labelCount_eq_length true _ fun d hd => hposmem d (List.mem_of_mem_take hd),
      labelCount_eq_zero true _ fun d hd => by
        simpa using hnegmem d (List.mem_of_mem_take hd),
      List.length_take]
    omega
  have hvalF : Problem2.labelCount false (Problem2.stratifiedSplit data).2 = n0 := by
    rw [hval, labelCount_append,
      labelCount_eq_zero false _ fun d hd => by
        simpa using hposmem d (List.mem_of_mem_take hd),
      labelCount_eq_length false _ fun d hd => hnegmem d (List.mem_of_mem_take hd),
      List.length_take]
    omega
  have htrainT : Problem2.labelCount true (Problem2.stratifiedSplit data).1 = 9 * p0 := by
    rw [htrain, labelCount_append,
      labelCount_eq_length true _ fun d hd => hposmem d (List.mem_of_mem_drop hd),
      labelCount_eq_zero true _ fun d hd => by
        simpa using hnegmem d (List.mem_of_mem_drop hd),
      List.length_drop]
    omega
  have htrainF : Problem2.labelCount false (Problem2.stratifiedSplit data).1 = 9 * n0 := by
    rw [htrain, labelCount_append,
      labelCount_eq_zero false _ fun d hd => by
        simpa using hposmem d (List.mem_of_mem_drop hd),
      labelCount_eq_length false _ fun d hd => hnegmem d (List.mem_of_mem_drop hd),
      List.length_drop]
    omega
  have hdataLen : data.length = 10 * p0 + 10 * n0 := by omega
  refine ⟨by omega, by omega, ?_, ?_, ?_, ?_, ?_⟩
  · apply Multiset.coe_eq_coe.mp
    have hsplit := Multiset.coe_eq_coe.mpr (filter_true_false_perm data)
    have hposTD : pos.take (pos.length / 10) ++ pos.drop (pos.length / 10) = pos :=
      List.take_append_drop _ pos
    have hnegTD : neg.take (neg.length / 10) ++ neg.drop (neg.length / 10) = neg :=
      List.take_append_drop _ neg
    rw [← hposdef, ← hnegdef] at hsplit
    rw [← hposTD, ← hnegTD] at hsplit
    rw [htrain, hval]
    simp only [← Multiset.coe_add] at hsplit ⊢
    rw [← hsplit]
    abel
  · rw [hvalT, hvalLen, hPdata, hdataLen]
    have : pos.length = 10 * p0 := hp0
    rw [this]
    ring
  · rw [hvalF, hvalLen, hNdata, hdataLen]
    have : neg.length = 10 * n0 := hn0
    rw [this]
    ring
  · rw [htrainT, htrainLen, hPdata, hdataLen]
    have : pos.length = 10 * p0 := hp0
    rw [this]
    ring
  · rw [htrainF, htrainLen, hNdata, hdataLen]
    have : neg.length = 10 * n0 := hn0
    rw [this]
    ring

/-- Witness for C3 at a concrete dataset of 10 positive and 10 negative
examples. -/
theorem C3_stratified_split_witness :
    (10 ∣ Problem2.labelCount true
        (List.replicate 10 ((0 : Nat), true) ++ List.replicate 10 ((1 : Nat), false))) ∧
    (10 ∣ Problem2.labelCount false
        (List.replicate 10 ((0 : Nat), true) ++ List.replicate 10 ((1 : Nat), false))) ∧
    (Problem2.stratifiedSplit
        (List.replicate 10 ((0 : Nat), true) ++ List.replicate 10 ((1 : Nat), false))).2.length * 10
      = (List.replicate 10 ((0 : Nat), true) ++ List.replicate 10 ((1 : Nat), false)).length :=
  ⟨by decide, by decide,
    (C3_stratified_split
      (List.replicate 10 ((0 : Nat), true) ++ List.replicate 10 ((1 : Nat), false))
      (by decide) (by decide)).1⟩

/-- C7 counterexample: the claim that every batch produced by each loader
has exactly `batch_size = 8` examples fails: the sequential loader over a
12-example dataset (the loaders' default `drop_last=False`) produces a
final batch of 4 examples.  The notebook's own sizes (22500 train, 2500
validation) are likewise not divisible by 8. -/
theorem C7_counterexample_short_last_batch :
    ¬ ∀ b ∈ Problem2.sequentialLoader (List.range 12), b.length = 8 := by
  decide

/-- C7 (amended): every batch produced by each loader is nonempty with at
most `batch_size = 8` examples, and every batch except the last has
exactly 8 (the final batch holds the remainder when the dataset size is not
divisible by 8); the sequential (val/test) loaders yield the examples in
their original order, and the shuffled train loader yields exactly the
dataset's examples reordered by the sampler's permutation. -/
theorem C7_loaders_batching (xs shuffled : List α) :
    Problem2.batch_size = 8 ∧
    (∀ b ∈ Problem2.sequentialLoader xs, b ≠ [] ∧ b.length ≤ 8) ∧
    (∀ b ∈ (Problem2.sequentialLoader xs).dropLast, b.length = 8) ∧
    (Problem2.sequentialLoader xs).flatten = xs ∧
    (shuffled.Perm xs → (Problem2.shuffledLoader shuffled).flatten.Perm xs) := by
  refine ⟨rfl, ?_, ?_, ?_, ?_⟩
  · intro b hb
    exact batchesGo_mem_size 8 (by omega) xs.length xs b hb
  · intro b hb
    exact batchesGo_dropLast_full 8 xs.length xs b hb
  · exact batchesGo_join 8 (by omega) xs.length xs le_rfl
  · intro hperm
    have hflat : (Problem2.shuffledLoader shuffled).flatten = shuffled :=
      batchesGo_join 8 (by omega) shuffled.length shuffled le_rfl
    rw [hflat]
    exact hperm

/-- Witness for C7 at a concrete dataset and a concrete shuffle. -/
theorem C7_loaders_batching_witness :
    ([2, 0, 1] : List Nat).Perm [0, 1, 2] ∧
    (Problem2.shuffledLoader ([2, 0, 1] : List Nat)).flatten.Perm [0, 1, 2] :=
  ⟨by decide, (C7_loaders_batching [0, 1, 2] [2, 0, 1]).2.2.2.2 (by decide)⟩

/-- Helper: the train phase of an epoch records one loss per train batch,
and its final model is the fold of one optimizer step per batch over the
incoming model. -/
theorem runTrainBatches_spec (lossOf : Problem2.CustomBERTModel → β → ℚ)
    (gradOf : Problem2.CustomBERTModel → β → ℚ → ℚ)
    (correctOf : Problem2.CustomBERTModel → β → Nat) (batchSizeOf : β → Nat) :
    ∀ (bs : List β) (m : Problem2.CustomBERTModel),
      (Problem2.runTrainBatches lossOf gradOf correctOf batchSizeOf m bs).2.losses.length
          = bs.length ∧
      (Problem2.runTrainBatches lossOf gradOf correctOf batchSizeOf m bs).1
          = bs.foldl (fun acc b => Problem2.optimStep (gradOf acc b) acc) m := by
  intro bs
  induction bs with
  | nil => exact fun m => ⟨rfl, rfl⟩
  | cons b bs ih =>
    intro m
    refine ⟨?_, ?_⟩
    · simpa [Problem2.runTrainBatches]
        using (ih (Problem2.optimStep (gradOf m b) m)).1
    · simpa [Problem2.runTrainBatches]
        using (ih (Problem2.optimStep (gradOf m b) m)).2

/-- Helper: the validation phase records one loss per validation batch. -/
theorem runEvalBatches_losses_length (lossOf : Problem2.CustomBERTModel → β → ℚ)
    (correctOf : Problem2.CustomBERTModel → β → Nat) (batchSizeOf : β → Nat)
    (m : Problem2.CustomBERTModel) :
    ∀ bs : List β,
      (Problem2.runEvalBatches lossOf correctOf batchSizeOf m bs).losses.length
        = bs.length := by
  intro bs
  induction bs with
  | nil => rfl
  | cons b bs ih => simpa [Problem2.runEvalBatches] using ih

/-- Helper: the epoch loop yields one report per epoch, and every report's
loss averages are the arithmetic means of its recorded per-batch losses,
one per train (respectively validation) batch. -/
theorem trainLoop_spec (lossOf : Problem2.CustomBERTModel → β → ℚ)
    (gradOf : Problem2.CustomBERTModel → β → ℚ → ℚ)
    (correctOf : Problem2.CustomBERTModel → β → Nat) (batchSizeOf : β → Nat)
    (tb vb : List β) :
    ∀ (n : Nat) (m : Problem2.CustomBERTModel),
      (Problem2.trainLoop lossOf gradOf correctOf batchSizeOf n m tb vb).2.length = n ∧
      ∀ r ∈ (Problem2.trainLoop lossOf gradOf correctOf batchSizeOf n m tb vb).2,
        r.trainLosses.length = tb.length ∧
        r.avg_train_loss = r.trainLosses.sum / (r.trainLosses.length : ℚ) ∧
        r.valLosses.length = vb.length ∧
        r.avg_val_loss = r.valLosses.sum / (r.valLosses.length : ℚ) := by
  intro n
  induction n with
  | zero =>
    intro m
    exact ⟨rfl, fun r hr => absurd hr (List.not_mem_nil r)⟩
  | succ n ih =>
    intro m
    set e := Problem2.runEpoch lossOf gradOf correctOf batchSizeOf m tb vb with he
    have hlen : (Problem2.trainLoop lossOf gradOf correctOf batchSizeOf (n + 1) m tb vb).2.length
        = n + 1 := by
      simpa [Problem2.trainLoop] using (ih e.1).1
    refine ⟨hlen, ?_⟩
    intro r hr
    have hr' : r = e.2 ∨
        r ∈ (Problem2.trainLoop lossOf gradOf correctOf batchSizeOf n e.1 tb vb).2 := by
      simpa [Problem2.trainLoop] using hr
    rcases hr' with hr1 | hr2
    · subst hr1
      have htr := runTrainBatches_spec lossOf gradOf correctOf batchSizeOf tb m
      have hev := runEvalBatches_losses_length lossOf correctOf batchSizeOf
        (Problem2.runTrainBatches lossOf gradOf correctOf batchSizeOf m tb).1 vb
      refine ⟨htr.1, ?_, hev, ?_⟩
      · show (Problem2.runTrainBatches lossOf gradOf correctOf batchSizeOf m tb).2.losses.sum
              / (tb.length : ℚ)
          = (Problem2.runTrainBatches lossOf gradOf correctOf batchSizeOf m tb).2.losses.sum
              / (((Problem2.runTrainBatches lossOf gradOf correctOf
                    batchSizeOf m tb).2.losses.length : Nat) : ℚ)
        rw [htr.1]
      · show (Problem2.runEvalBatches lossOf correctOf batchSizeOf
                (Problem2.runTrainBatches lossOf gradOf correctOf batchSizeOf m tb).1
                vb).losses.sum / (vb.length : ℚ)
          = (Problem2.runEvalBatches lossOf correctOf batchSizeOf
                (Problem2.runTrainBatches lossOf gradOf correctOf batchSizeOf m tb).1
                vb).losses.sum
              / (((Problem2.runEvalBatches lossOf correctOf batchSizeOf
                    (Problem2.runTrainBatches lossOf gradOf correctOf batchSizeOf m tb).1
                    vb).losses.length : Nat) : ℚ)
        rw [hev]
    · exact (ih e.1).2 r hr2

/-- C6: the training loop runs for exactly two epochs; in each epoch it
iterates once over every training batch — computing the batch loss,
backpropagating and stepping the optimizer once per batch — and then
reports per-epoch loss and accuracy for both the train and validation
sets, the reported per-epoch loss being the arithmetic mean of the
per-batch losses. -/
theorem C6_training_loop (lossOf : Problem2.CustomBERTModel → β → ℚ)
    (gradOf : Problem2.CustomBERTModel → β → ℚ → ℚ)
    (correctOf : Problem2.CustomBERTModel → β → Nat) (batchSizeOf : β → Nat)
    (m : Problem2.CustomBERTModel) (tb vb : List β) :
    Problem2.EPOCHS = 2 ∧
    (Problem2.runTraining lossOf gradOf correctOf batchSizeOf m tb vb).2.length = 2 ∧
    (∀ r ∈ (Problem2.runTraining lossOf gradOf correctOf batchSizeOf m tb vb).2,
      r.trainLosses.length = tb.length ∧
      r.avg_train_loss = r.trainLosses.sum / (r.trainLosses.length : ℚ) ∧
      r.valLosses.length = vb.length ∧
      r.avg_val_loss = r.valLosses.sum / (r.valLosses.length : ℚ)) ∧
    (Problem2.runTrainBatches lossOf gradOf correctOf batchSizeOf m tb).1
      = tb.foldl (fun acc b => Problem2.optimStep (gradOf acc b) acc) m := by
  refine ⟨rfl,
    (trainLoop_spec lossOf gradOf correctOf batchSizeOf tb vb Problem2.EPOCHS m).1,
    (trainLoop_spec lossOf gradOf correctOf batchSizeOf tb vb Problem2.EPOCHS m).2,
    (runTrainBatches_spec lossOf gradOf correctOf batchSizeOf tb m).2⟩

/-- C10: the device selection never falls back to CPU, contrary to its own
comment: the chosen device is "cuda" when CUDA is available and "mps" in
every other case, so on a machine with neither CUDA nor MPS the program
still selects the "mps" device rather than "cpu". -/
theorem C10_device_never_cpu :
    Problem2.selectDevice true = "cuda" ∧
    Problem2.selectDevice false = "mps" ∧
    ∀ c : Bool, Problem2.selectDevice c ≠ "cpu" := by
  refine ⟨rfl, rfl, ?_⟩
  intro c
  cases c <;> simp [Problem2.selectDevice]

/-- C8: the inference routine reports a human-readable sentiment label
determined solely by the argmax of the logits: it prints "POSITIVE" if and
only if the predicted class index equals 1, and "NEGATIVE" otherwise. -/
theorem C8_sentiment_label :
    ∀ pred : Nat,
      (Problem2.sentimentLabel pred = "POSITIVE" ↔ pred = 1) ∧
      (Problem2.sentimentLabel pred = "NEGATIVE" ↔ pred ≠ 1) := by
  intro pred
  by_cases h : pred = 1 <;> simp [Problem2.sentimentLabel, h]

/-- C4: the tokenizer adapter converts every raw input text into a
fixed-length padded/truncated token-id sequence plus an attention mask:
for every list of input texts, every returned input-id sequence and
attention-mask sequence has exactly `MAX_LENGTH = 256` entries. -/
theorem C4_tokenize_fixed_length :
    Problem2.MAX_LENGTH = 256 ∧
    ∀ (texts : List (List Nat)) (p : List Nat × List Nat),
      p ∈ Problem2.tokenize_function texts →
      p.1.length = 256 ∧ p.2.length = 256 := by
  refine ⟨rfl, ?_⟩
  intro texts p hp
  rcases List.mem_map.mp hp with ⟨t, _, rfl⟩
  constructor <;> simp [Problem2.encodeOne, Problem2.MAX_LENGTH]

/-- C1: during training no gradient flows into the encoder's parameters and
only the classifier head's parameters are updated: after construction every
BERT parameter has `requires_grad = False`, the optimizer is built over
exactly the trainable parameters — which are exactly the classifier head's
parameters — and across every sequence of optimizer steps the BERT
parameters are unchanged. -/
theorem C1_encoder_frozen (pretrainedBert : List Problem2.Param)
    (classifierValues : List ℚ) (upds : List (ℚ → ℚ)) :
    (∀ p ∈ (Problem2.initModel pretrainedBert classifierValues).bertParams,
        p.requires_grad = false) ∧
    Problem2.trainableParams (Problem2.initModel pretrainedBert classifierValues)
      = (Problem2.initModel pretrainedBert classifierValues).classifierParams ∧
    (Problem2.optimSteps upds
        (Problem2.initModel pretrainedBert classifierValues)).bertParams
      = (Problem2.initModel pretrainedBert classifierValues).bertParams := by
  have hfrozen : ∀ p ∈ (Problem2.initModel pretrainedBert classifierValues).bertParams,
      p.requires_grad = false := by
    intro p hp
    rcases List.mem_map.mp hp with ⟨q, _, rfl⟩
    rfl
  refine ⟨hfrozen, ?_, optimSteps_preserves_frozen_bert upds _ hfrozen⟩
  unfold Problem2.trainableParams Problem2.CustomBERTModel.parameters Problem2.initModel
  simp [List.filter_append, List.filter_map, Function.comp_def]

/-- C5: accuracy is computed via argmax-and-compare: for every evaluated
partition, the reported accuracy equals the number of examples whose argmax
over the 2 logits equals the true label, divided by the total number of
examples in that partition, and it always lies in the interval from 0 to 1. -/
theorem C5_accuracy_argmax (rows : List ((ℚ × ℚ) × Nat)) :
    Problem2.accuracy rows
        = ((rows.filter fun r => Problem2.argmax2 r.1.1 r.1.2 == r.2).length : ℚ)
            / (rows.length : ℚ) ∧
    0 ≤ Problem2.accuracy rows ∧ Problem2.accuracy rows ≤ 1 := by
  have hle : Problem2.countCorrect rows ≤ rows.length :=
    List.length_filter_le _ rows
  refine ⟨rfl, ?_, ?_⟩
  · exact div_nonneg (by positivity) (by positivity)
  · rcases Nat.eq_zero_or_pos rows.length with h0 | hpos
    · simp [Problem2.accuracy, h0]
    · have hlen : (0 : ℚ) < (rows.length : ℚ) := by exact_mod_cast hpos
      rw [Problem2.accuracy, div_le_one hlen]
      exact_mod_cast hle
